import Mathlib

/-!
Verification of the caching-proxy core (`src/index.js`) against its
natural-language specification.

The development shallowly embeds the request-handling and caching pipeline:
  * `Json` models the JavaScript/JSON values that flow through the proxy
    (cached payloads, snapshot file contents).
  * `Store` models the `node-cache` instance `this.cache` as an association
    list of `(key, value, expiry)` entries; `nodeGet`/`nodeSet` follow
    node-cache's lazy-expiry semantics with the constructor's
    `stdTTL: 3600` (src/index.js line 14).
  * `FileState` models the durable snapshot file at `cacheFilePath`
    together with `saveCache` (lines 35-41), `loadCache` (lines 44-57) and
    `clearCache` (lines 60-66).
  * `generateCacheKey` (lines 22-32) is embedded in full: JSON.stringify of
    the `{method, url, headers}` object, UTF-8 encoding, MD5, lowercase hex.
  * `resolve` embeds the request middleware (lines 81-167), with the axios
    collaborator abstracted as a function from the sent header set to an
    upstream behaviour, and the sequence of upstream calls recorded so that
    call counts and sent headers are observable.

Time is measured in seconds as a `Nat` (node-cache uses millisecond
timestamps internally; only the comparison order matters here).
-/

/-- JSON values, as produced by `JSON.parse` / consumed by `JSON.stringify`.
Numbers are modelled as integers; object fields keep insertion order, as
JavaScript objects do. -/
inductive Json where
  | null : Json
  | bool (b : Bool) : Json
  | num (n : Int) : Json
  | str (s : String) : Json
  | arr (xs : List Json) : Json
  | obj (fields : List (String × Json)) : Json
deriving Repr

/-- JavaScript truthiness of a JSON value (`if (v)`): `null`, `false`, `0`
and `""` are falsy; every object and array is truthy. -/
def jsTruthy : Json → Bool
  | .null => false
  | .bool b => b
  | .num n => n != 0
  | .str s => s != ""
  | .arr _ => true
  | .obj _ => true

/-- Truthiness of a possibly-`undefined` value (`this.cache.get` returns
`undefined` on absence, which is falsy). -/
def optTruthy : Option Json → Bool
  | none => false
  | some v => jsTruthy v

/-- A cache entry: key, stored value, absolute expiry time (seconds).
node-cache stores `ts = now + ttl` at `set` time. -/
abbrev Entry := String × Json × Nat

/-- The in-memory cache `this.cache`: entries in insertion order, at most
one per key (maintained by `storeSet`). -/
abbrev Store := List Entry

/-- `stdTTL: 3600` from `new NodeCache({ stdTTL: 3600 })`,
src/index.js line 14. The parsed CLI option `--ttl` (default 60) is never
passed to the cache, so this constant is the only TTL in effect. -/
def stdTTL : Nat := 3600

/-- Insert or overwrite the entry for `k`, keeping its position when the
key is already present (as node-cache's backing object does). -/
def storeSet (st : Store) (k : String) (v : Json) (expiry : Nat) : Store :=
  match st with
  | [] => [(k, v, expiry)]
  | (k', v', e') :: rest =>
    if k' = k then (k, v, expiry) :: rest
    else (k', v', e') :: storeSet rest k v expiry

/-- First entry for `k`, expiry included. -/
def storeFind (st : Store) (k : String) : Option (Json × Nat) :=
  match st with
  | [] => none
  | (k', v', e') :: rest => if k' = k then some (v', e') else storeFind rest k

/-- `this.cache.get(key)` with node-cache's lazy expiry: an entry whose
expiry time has passed (`now > e`) is reported absent. -/
def nodeGet (now : Nat) (st : Store) (k : String) : Option Json :=
  match storeFind st k with
  | none => none
  | some (v, e) => if now > e then none else some v

/-- `this.cache.set(key, value)` with no per-entry TTL: the instance
default `stdTTL` (3600 s) applies. -/
def nodeSet (now : Nat) (st : Store) (k : String) (v : Json) : Store :=
  storeSet st k v (now + stdTTL)

/-- `this.cache.keys()`. -/
def nodeKeys (st : Store) : List String := st.map (fun e => e.1)

/-- The durable snapshot file at `cacheFilePath`, as seen through
`fs.existsSync` / `fs.readFileSync` + `JSON.parse`:
  * `absent` — the file does not exist;
  * `unreadable` — the file exists but reading it or parsing its contents
    throws (corrupt JSON, permission error);
  * `parsed j` — the file exists and its contents parse to the JSON
    value `j`. -/
inductive FileState where
  | absent : FileState
  | unreadable : FileState
  | parsed (j : Json) : FileState
deriving Repr

/-- `fs.existsSync(this.cacheFilePath)`. -/
def fileExists : FileState → Bool
  | .absent => false
  | _ => true

/-- JavaScript object-property assignment `acc[key] = v`: overwrite in
place when the key exists, else append. -/
def assocSet {α : Type} (o : List (String × α)) (k : String) (v : α) :
    List (String × α) :=
  match o with
  | [] => [(k, v)]
  | (k', v') :: rest =>
    if k' = k then (k, v) :: rest else (k', v') :: assocSet rest k v

/-- First value for `k` in an association list (JavaScript property
lookup on objects built by `assocSet`). -/
def assocFind {α : Type} (o : List (String × α)) (k : String) : Option α :=
  match o with
  | [] => none
  | (k', v') :: rest => if k' = k then some v' else assocFind rest k

/-- The object built by `saveCache`'s reduce (src/index.js lines 36-39)
as it appears after `JSON.stringify`: for each key of the cache,
`acc[key] = this.cache.get(key)`; keys whose `get` returns `undefined`
(expired entries) are dropped by `JSON.stringify`. -/
def cacheData (now : Nat) (st : Store) : List (String × Json) :=
  (nodeKeys st).foldl
    (fun acc k =>
      match nodeGet now st k with
      | some v => assocSet acc k v
      | none => acc)
    []

/-- `saveCache()` (src/index.js lines 35-41): write the serialized cache
object to the snapshot file. -/
def saveCache (now : Nat) (st : Store) : FileState :=
  .parsed (.obj (cacheData now st))

/-- `Object.entries(x)` for a parsed JSON value: fields of an object,
indexed elements of an array, indexed one-character strings of a string,
and `[]` for numbers and booleans. (`Object.entries(null)` throws; that
case is handled in `loadCache` directly.) -/
def jsEntries : Json → List (String × Json)
  | .obj fields => fields
  | .arr xs => (xs.enum).map (fun p => (toString p.1, p.2))
  | .str s => (s.data.enum).map (fun p => (toString p.1, Json.str (String.singleton p.2)))
  | _ => []

/-- `loadCache()` (src/index.js lines 44-57): if the snapshot file exists,
parse it and `set` every entry of `Object.entries` into the cache; any
exception (read failure, parse failure, `Object.entries(null)`) is caught
and logged. Returns the resulting store and whether the catch branch ran
(`console.error("Error loading cache:", ...)`). -/
def loadCache (now : Nat) (st : Store) (d : FileState) : Store × Bool :=
  match d with
  | .absent => (st, false)
  | .unreadable => (st, true)
  | .parsed .null => (st, true)
  | .parsed j =>
    ((jsEntries j).foldl (fun s kv => nodeSet now s kv.1 kv.2) st, false)

/-- `clearCache()` (src/index.js lines 60-66): `flushAll`, then unlink the
snapshot file if it exists. -/
def clearCache (_st : Store) (d : FileState) : Store × FileState :=
  ([], if fileExists d then .absent else d)

/-! ### Cache-key derivation (`generateCacheKey`, src/index.js lines 22-32)

`crypto.createHash("md5").update(JSON.stringify(keyData)).digest("hex")`:
the key-data object is serialized with `JSON.stringify`, UTF-8 encoded,
hashed with MD5 and rendered as 32 lowercase hex characters. -/

/-- One character of a `JSON.stringify` string literal. -/
def jsonEscapeChar (c : Char) : String :=
  if c = '"' then "\\\""
  else if c = '\\' then "\\\\"
  else if c = '\n' then "\\n"
  else if c = '\r' then "\\r"
  else if c = '\t' then "\\t"
  else if c = '\x08' then "\\b"
  else if c = '\x0c' then "\\f"
  else if c.toNat < 32 then
    "\\u00" ++ String.mk [Char.ofNat (48 + c.toNat / 16),
      if c.toNat % 16 < 10 then Char.ofNat (48 + c.toNat % 16)
      else Char.ofNat (87 + c.toNat % 16)]
  else String.singleton c

/-- `JSON.stringify` of a string. -/
def jsQuote (s : String) : String :=
  "\"" ++ s.data.foldl (fun acc c => acc ++ jsonEscapeChar c) "" ++ "\""

/-- The inbound request as the middleware sees it: `req.method`, `req.url`
(path plus query) and `req.headers` (an object, insertion-ordered). -/
structure Descriptor where
  method : String
  url : String
  headers : List (String × String)
deriving Repr

/-- `JSON.stringify(req.headers)`. -/
def stringifyHeaders (hs : List (String × String)) : String :=
  "\x7b" ++
    String.intercalate ","
      (hs.map (fun p => jsQuote p.1 ++ ":" ++ jsQuote p.2)) ++
    "\x7d"

/-- `JSON.stringify(keyData)` for
`keyData = { method: req.method, url: req.url, headers: req.headers }`. -/
def stringifyKeyData (req : Descriptor) : String :=
  "\x7b\"method\":" ++ jsQuote req.method ++
    ",\"url\":" ++ jsQuote req.url ++
    ",\"headers\":" ++ stringifyHeaders req.headers ++ "\x7d"

/-- UTF-8 encoding of one character, as a list of byte values. -/
def utf8Char (c : Char) : List Nat :=
  let n := c.toNat
  if n < 128 then [n]
  else if n < 2048 then [192 + n / 64, 128 + n % 64]
  else if n < 65536 then [224 + n / 4096, 128 + n / 64 % 64, 128 + n % 64]
  else [240 + n / 262144, 128 + n / 4096 % 64, 128 + n / 64 % 64, 128 + n % 64]

/-- UTF-8 encoding of a string (`hash.update(s)` uses utf8). -/
def utf8Bytes (s : String) : List Nat := s.data.flatMap utf8Char

/-- MD5 per-round left-rotation amounts. -/
def md5Shifts : List Nat :=
  [7, 12, 17, 22, 7, 12, 17, 22, 7, 12, 17, 22, 7, 12, 17, 22,
   5, 9, 14, 20, 5, 9, 14, 20, 5, 9, 14, 20, 5, 9, 14, 20,
   4, 11, 16, 23, 4, 11, 16, 23, 4, 11, 16, 23, 4, 11, 16, 23,
   6, 10, 15, 21, 6, 10, 15, 21, 6, 10, 15, 21, 6, 10, 15, 21]

/-- MD5 sine-derived constants `K[i] = floor(abs(sin(i+1)) * 2^32)`. -/
def md5K : List Nat :=
  [0xd76aa478, 0xe8c7b756, 0x242070db, 0xc1bdceee,
   0xf57c0faf, 0x4787c62a, 0xa8304613, 0xfd469501,
   0x698098d8, 0x8b44f7af, 0xffff5bb1, 0x895cd7be,
   0x6b901122, 0xfd987193, 0xa679438e, 0x49b40821,
   0xf61e2562, 0xc040b340, 0x265e5a51, 0xe9b6c7aa,
   0xd62f105d, 0x02441453, 0xd8a1e681, 0xe7d3fbc8,
   0x21e1cde6, 0xc33707d6, 0xf4d50d87, 0x455a14ed,
   0xa9e3e905, 0xfcefa3f8, 0x676f02d9, 0x8d2a4c8a,
   0xfffa3942, 0x8771f681, 0x6d9d6122, 0xfde5380c,
   0xa4beea44, 0x4bdecfa9, 0xf6bb4b60, 0xbebfbc70,
   0x289b7ec6, 0xeaa127fa, 0xd4ef3085, 0x04881d05,
   0xd9d4d039, 0xe6db99e5, 0x1fa27cf8, 0xc4ac5665,
   0xf4292244, 0x432aff97, 0xab9423a7, 0xfc93a039,
   0x655b59c3, 0x8f0ccc92, 0xffeff47d, 0x85845dd1,
   0x6fa87e4f, 0xfe2ce6e0, 0xa3014314, 0x4e0811a1,
   0xf7537e82, 0xbd3af235, 0x2ad7d2bb, 0xeb86d391]

/-- 32-bit left rotation. -/
def rotl32 (x c : Nat) : Nat :=
  (x * 2 ^ c + x / 2 ^ (32 - c)) % 2 ^ 32

/-- 32-bit complement. -/
def not32 (x : Nat) : Nat := (2 ^ 32 - 1) ^^^ x

/-- A 64-byte message block as its `j`-th little-endian 32-bit word. -/
def blockWord (block : List Nat) (j : Nat) : Nat :=
  block.getD (4 * j) 0 + 256 * block.getD (4 * j + 1) 0 +
    65536 * block.getD (4 * j + 2) 0 + 16777216 * block.getD (4 * j + 3) 0

/-- The 64 MD5 operations on one block, from state `(a, b, c, d)`. -/
def md5Ops (st : Nat × Nat × Nat × Nat) (block : List Nat) :
    Nat × Nat × Nat × Nat :=
  (List.range 64).foldl
    (fun st i =>
      let a := st.1
      let b := st.2.1
      let c := st.2.2.1
      let d := st.2.2.2
      let fg : Nat × Nat :=
        if i < 16 then ((b &&& c) ||| (not32 b &&& d), i)
        else if i < 32 then ((d &&& b) ||| (not32 d &&& c), (5 * i + 1) % 16)
        else if i < 48 then (b ^^^ c ^^^ d, (3 * i + 5) % 16)
        else (c ^^^ (b ||| not32 d), (7 * i) % 16)
      let f := (fg.1 + a + md5K.getD i 0 + blockWord block fg.2) % 2 ^ 32
      (d, (b + rotl32 f (md5Shifts.getD i 0)) % 2 ^ 32, b, c))
    st

/-- Process one block: run the 64 operations and add the result into the
running state, word-wise mod 2^32. -/
def md5Process (st : Nat × Nat × Nat × Nat) (block : List Nat) :
    Nat × Nat × Nat × Nat :=
  let r := md5Ops st block
  ((st.1 + r.1) % 2 ^ 32, (st.2.1 + r.2.1) % 2 ^ 32,
   (st.2.2.1 + r.2.2.1) % 2 ^ 32, (st.2.2.2 + r.2.2.2) % 2 ^ 32)

/-- `n` as 8 little-endian bytes. -/
def le8 (n : Nat) : List Nat :=
  [n % 256, n / 2 ^ 8 % 256, n / 2 ^ 16 % 256, n / 2 ^ 24 % 256,
   n / 2 ^ 32 % 256, n / 2 ^ 40 % 256, n / 2 ^ 48 % 256, n / 2 ^ 56 % 256]

/-- MD5 padding: append `0x80`, zero-pad to 56 mod 64, append the bit
length as a 64-bit little-endian quantity. -/
def md5Pad (msg : List Nat) : List Nat :=
  msg ++ [128] ++
    List.replicate ((64 + 56 - (msg.length + 1) % 64) % 64) 0 ++
    le8 (msg.length * 8 % 2 ^ 64)

/-- Split a byte list into 64-byte blocks. -/
def chunk64 (l : List Nat) : List (List Nat) :=
  if h : l = [] then []
  else l.take 64 :: chunk64 (l.drop 64)
termination_by l.length
decreasing_by
  simp only [List.length_drop]
  have : 0 < l.length := List.length_pos.mpr h
  omega

/-- The MD5 state after absorbing a whole (padded) message. -/
def md5Core (msg : List Nat) : Nat × Nat × Nat × Nat :=
  (chunk64 (md5Pad msg)).foldl md5Process
    (0x67452301, 0xefcdab89, 0x98badcfe, 0x10325476)

/-- A 32-bit word as 4 little-endian bytes. -/
def wordLE (w : Nat) : List Nat :=
  [w % 256, w / 256 % 256, w / 65536 % 256, w / 16777216 % 256]

/-- The 16-byte MD5 digest of a byte sequence. -/
def md5Digest (msg : List Nat) : List Nat :=
  let st := md5Core msg
  wordLE st.1 ++ wordLE st.2.1 ++ wordLE st.2.2.1 ++ wordLE st.2.2.2

/-- Lowercase hex digit for a value below 16 (`digest("hex")`): code
point 48-57 for 0-9, 97-102 for 10-15. -/
def hexDigit (n : Nat) : Char :=
  if n < 10 then Char.ofNat (48 + n) else Char.ofNat (87 + n)

/-- `c` is a lowercase hexadecimal digit. -/
def hexLower (c : Char) : Bool :=
  c.isDigit || ('a' ≤ c && c ≤ 'f')

/-- Lowercase hex rendering of a byte list. -/
def hexRender (bs : List Nat) : List Char :=
  bs.flatMap (fun b => [hexDigit (b / 16), hexDigit (b % 16)])

/-- `generateCacheKey` (src/index.js lines 22-32). -/
def generateCacheKey (req : Descriptor) : String :=
  String.mk (hexRender (md5Digest (utf8Bytes (stringifyKeyData req))))

/-! ### The forwarding resolver (request middleware, src/index.js lines 81-167)

The axios collaborator is abstracted as `fwd : List (String × String) →
Upstream`: what the origin does for a request carrying the given header
set (method and url are fixed by the descriptor for the whole resolution).
`axiosCall` turns that behaviour into axios's resolve/reject outcome for a
given `validateStatus` predicate: the first call accepts 2xx and 304
(src/index.js lines 110-112), the second, fresh call (lines 132-144) uses
axios's default, 2xx only. -/

/-- What the upstream origin does for one request. -/
inductive Upstream where
  | reply (status : Nat) (data : Json) : Upstream
  | netError (msg : String) : Upstream
deriving Repr

/-- An axios outcome: fulfilled with `(status, data)`, or rejected with
`(error.response?.status, error.message)` (`none` for a network error with
no response). -/
def axiosCall (accept304 : Bool) (u : Upstream) :
    Except (Option Nat × String) (Nat × Json) :=
  match u with
  | .netError m => .error (none, m)
  | .reply s dta =>
    if (200 ≤ s ∧ s < 300) ∨ (accept304 = true ∧ s = 304) then .ok (s, dta)
    else .error (some s, "Request failed with status code " ++ toString s)

/-- What the middleware produced for the inbound request. -/
inductive Outcome where
  /-- `X-Cache: HIT`, `res.json(v)`. -/
  | hit (v : Json) : Outcome
  /-- `X-Cache: MISS`, `res.json(v)`. -/
  | miss (v : Json) : Outcome
  /-- `res.status(code).json({ error: "Proxy request failed", details })`. -/
  | errorResp (code : Nat) (details : String) : Outcome
  /-- The handler returned without sending any response. -/
  | noResponse : Outcome
deriving Repr

/-- Result of one middleware invocation: the response sent, the cache and
snapshot-file state afterwards, and the header sets of the upstream calls
made, in order. -/
structure ResolveResult where
  outcome : Outcome
  store : Store
  disk : FileState
  calls : List (List (String × String))
deriving Repr

/-- The `catch` block (src/index.js lines 151-166). -/
def catchBlock (cachedResponse : Option Json) (st : Option Nat)
    (msg : String) : Outcome :=
  if st = some 304 ∧ optTruthy cachedResponse = true then
    .hit (cachedResponse.getD .null)
  else .errorResp (st.getD 500) msg

/-- The request middleware (src/index.js lines 81-167): derive the key,
try the cache, else forward with `{...req.headers, host}` (note: NOT the
conditional-header-stripped `headers` object computed at lines 92-94,
which is only used by the second, fresh request), then interpret the
upstream outcome exactly as the source does. -/
def resolve (now : Nat) (st : Store) (d : FileState) (req : Descriptor)
    (originHost : String) (fwd : List (String × String) → Upstream) :
    ResolveResult :=
  let cacheKey := generateCacheKey req
  let cachedResponse := nodeGet now st cacheKey
  if optTruthy cachedResponse = true then
    ⟨.hit (cachedResponse.getD .null), st, d, []⟩
  else
    let headers :=
      (req.headers.filter (fun p => p.1 ≠ "if-none-match")).filter
        (fun p => p.1 ≠ "if-modified-since")
    let sent1 := assocSet req.headers "host" originHost
    match axiosCall true (fwd sent1) with
    | .ok (status, dta) =>
      if status = 304 ∧ optTruthy cachedResponse = true then
        ⟨.hit (cachedResponse.getD .null), st, d, [sent1]⟩
      else if jsTruthy dta = true then
        let st' := nodeSet now st cacheKey dta
        ⟨.miss dta, st', saveCache now st', [sent1]⟩
      else if status = 304 ∧ ¬ optTruthy cachedResponse = true then
        let sent2 := assocSet headers "host" originHost
        match axiosCall false (fwd sent2) with
        | .ok (_, dta2) =>
          let st' := nodeSet now st cacheKey dta2
          ⟨.miss dta2, st', saveCache now st', [sent1, sent2]⟩
        | .error (est, msg) =>
          ⟨catchBlock cachedResponse est msg, st, d, [sent1, sent2]⟩
      else ⟨.noResponse, st, d, [sent1]⟩
    | .error (est, msg) =>
      ⟨catchBlock cachedResponse est msg, st, d, [sent1]⟩

/-! ### Concrete fixtures used by counterexamples and witnesses -/

/-- `GET /x` with no inbound headers. -/
def reqPlain : Descriptor := ⟨"GET", "/x", []⟩

/-- `GET /x` carrying a conditional-request header. -/
def reqCond : Descriptor := ⟨"GET", "/x", [("if-none-match", "abc")]⟩

/-- The spec's example payload `{"a":1}`. -/
def payloadA : Json := .obj [("a", .num 1)]

/-- An origin that replies 200 with payload `p` to every request. -/
def fwd200 (p : Json) : List (String × String) → Upstream :=
  fun _ => .reply 200 p

/-- An origin that replies 503 to every request. -/
def fwd503 : List (String × String) → Upstream :=
  fun _ => .reply 503 .null

/-- An origin that fails at the network level for every request. -/
def fwdNet : List (String × String) → Upstream :=
  fun _ => .netError "socket hang up"

/-! ### Helper lemmas about the store and association lists -/

theorem storeFind_nil (k : String) : storeFind [] k = none := rfl

theorem storeFind_storeSet_self (st : Store) (k : String) (v : Json)
    (e : Nat) : storeFind (storeSet st k v e) k = some (v, e) := by
  induction st with
  | nil => simp [storeSet, storeFind]
  | cons hd tl ih =>
    obtain ⟨k', v', e'⟩ := hd
    by_cases h : k' = k
    · simp [storeSet, storeFind, h]
    · simp [storeSet, storeFind, h, ih]

theorem storeFind_storeSet_ne (st : Store) (k k' : String) (v : Json)
    (e : Nat) (h : k' ≠ k) :
    storeFind (storeSet st k v e) k' = storeFind st k' := by
  induction st with
  | nil => simp [storeSet, storeFind, Ne.symm h]
  | cons hd tl ih =>
    obtain ⟨k1, v1, e1⟩ := hd
    by_cases h1 : k1 = k
    · subst h1
      simp [storeSet, storeFind, Ne.symm h]
    · simp only [storeSet, storeFind, if_neg h1]
      by_cases h2 : k1 = k'
      · simp [h2]
      · simp [h2, ih]

theorem nodeGet_nil (now : Nat) (k : String) : nodeGet now [] k = none := rfl

theorem nodeGet_nodeSet_self (now now' : Nat) (st : Store) (k : String)
    (v : Json) :
    nodeGet now' (nodeSet now st k v) k =
      if now' > now + stdTTL then none else some v := by
  simp [nodeGet, nodeSet, storeFind_storeSet_self]

theorem nodeGet_nodeSet_ne (now now' : Nat) (st : Store) (k k' : String)
    (v : Json) (h : k' ≠ k) :
    nodeGet now' (nodeSet now st k v) k' = nodeGet now' st k' := by
  simp [nodeGet, nodeSet, storeFind_storeSet_ne _ _ _ _ _ h]

theorem storeFind_mem_keys (st : Store) (k : String) (p : Json × Nat)
    (h : storeFind st k = some p) : k ∈ nodeKeys st := by
  induction st with
  | nil => simp [storeFind] at h
  | cons hd tl ih =>
    obtain ⟨k1, v1, e1⟩ := hd
    by_cases h1 : k1 = k
    · simp [nodeKeys, h1]
    · simp only [storeFind, if_neg h1] at h
      simp [nodeKeys] at ih ⊢
      exact Or.inr (ih h)

theorem nodeGet_mem_keys (now : Nat) (st : Store) (k : String) (v : Json)
    (h : nodeGet now st k = some v) : k ∈ nodeKeys st := by
  unfold nodeGet at h
  rcases hf : storeFind st k with _ | p
  · simp [hf] at h
  · exact storeFind_mem_keys st k p hf

theorem assocFind_nil {α : Type} (k : String) :
    assocFind ([] : List (String × α)) k = none := rfl

theorem assocFind_assocSet_self {α : Type} (o : List (String × α))
    (k : String) (v : α) : assocFind (assocSet o k v) k = some v := by
  induction o with
  | nil => simp [assocSet, assocFind]
  | cons hd tl ih =>
    obtain ⟨k', v'⟩ := hd
    by_cases h : k' = k
    · simp [assocSet, assocFind, h]
    · simp [assocSet, assocFind, h, ih]

theorem assocFind_assocSet_ne {α : Type} (o : List (String × α))
    (k k' : String) (v : α) (h : k' ≠ k) :
    assocFind (assocSet o k v) k' = assocFind o k' := by
  induction o with
  | nil => simp [assocSet, assocFind, Ne.symm h]
  | cons hd tl ih =>
    obtain ⟨k1, v1⟩ := hd
    by_cases h1 : k1 = k
    · subst h1
      simp [assocSet, assocFind, Ne.symm h]
    · simp only [assocSet, assocFind, if_neg h1]
      by_cases h2 : k1 = k'
      · simp [h2]
      · simp [h2, ih]

theorem assocFind_eq_none_of_not_mem {α : Type} (o : List (String × α))
    (k : String) (h : k ∉ o.map Prod.fst) : assocFind o k = none := by
  induction o with
  | nil => rfl
  | cons hd tl ih =>
    obtain ⟨k1, v1⟩ := hd
    simp only [List.map_cons, List.mem_cons] at h
    push_neg at h
    simp [assocFind, Ne.symm h.1, ih h.2]

theorem assocSet_keys {α : Type} (o : List (String × α)) (k : String)
    (v : α) :
    (assocSet o k v).map Prod.fst =
      if k ∈ o.map Prod.fst then o.map Prod.fst
      else o.map Prod.fst ++ [k] := by
  induction o with
  | nil => simp [assocSet]
  | cons hd tl ih =>
    obtain ⟨k1, v1⟩ := hd
    by_cases h1 : k1 = k
    · simp [assocSet, h1]
    · simp only [assocSet, if_neg h1, List.map_cons, ih]
      by_cases h2 : k ∈ tl.map Prod.fst
      · simp [h2, Ne.symm h1]
      · simp [h2, Ne.symm h1]

theorem assocSet_keys_nodup {α : Type} (o : List (String × α)) (k : String)
    (v : α) (h : (o.map Prod.fst).Nodup) :
    ((assocSet o k v).map Prod.fst).Nodup := by
  rw [assocSet_keys]
  by_cases h2 : k ∈ o.map Prod.fst
  · simpa [h2]
  · simpa [h2] using List.Nodup.append h (List.nodup_singleton k)
      (by simpa using h2)

/-! ### Round-trip lemmas for `saveCache` / `loadCache` -/

theorem cacheData_foldl_find (now : Nat) (st : Store) (ks : List String)
    (acc : List (String × Json)) (k : String) :
    assocFind
        (ks.foldl
          (fun acc k =>
            match nodeGet now st k with
            | some v => assocSet acc k v
            | none => acc)
          acc) k =
      match nodeGet now st k with
      | some v => if k ∈ ks then some v else assocFind acc k
      | none => assocFind acc k := by
  induction ks generalizing acc with
  | nil =>
    rcases hg : nodeGet now st k with _ | v <;> simp [hg]
  | cons k1 rest ih =>
    simp only [List.foldl_cons]
    rw [ih]
    by_cases hk : k = k1
    · subst hk
      rcases hg : nodeGet now st k with _ | v
      · simp [hg]
      · simp only [hg, List.mem_cons, true_or, if_pos]
        by_cases hr : k ∈ rest
        · simp [hr]
        · simp [hr, assocFind_assocSet_self]
    · rcases hg1 : nodeGet now st k1 with _ | v1
      · rcases hg : nodeGet now st k with _ | v
        · simp [hg1, hg]
        · simp [hg1, hg, List.mem_cons, hk]
      · rcases hg : nodeGet now st k with _ | v
        · simp [hg1, hg, assocFind_assocSet_ne _ _ _ _ hk]
        · simp [hg1, hg, List.mem_cons, hk,
            assocFind_assocSet_ne _ _ _ _ hk]

theorem assocFind_cacheData (now : Nat) (st : Store) (k : String) :
    assocFind (cacheData now st) k = nodeGet now st k := by
  unfold cacheData
  rw [cacheData_foldl_find]
  rcases hg : nodeGet now st k with _ | v
  · rfl
  · simp [nodeGet_mem_keys now st k v hg]

theorem cacheData_keys_nodup (now : Nat) (st : Store) :
    ((cacheData now st).map Prod.fst).Nodup := by
  unfold cacheData
  have main : ∀ (ks : List String) (acc : List (String × Json)),
      (acc.map Prod.fst).Nodup →
      ((ks.foldl
          (fun acc k =>
            match nodeGet now st k with
            | some v => assocSet acc k v
            | none => acc)
          acc).map Prod.fst).Nodup := by
    intro ks
    induction ks with
    | nil => intro acc h; simpa using h
    | cons k1 rest ih =>
      intro acc h
      simp only [List.foldl_cons]
      rcases hg : nodeGet now st k1 with _ | v
      · simp only [hg]
        exact ih acc h
      · simp only [hg]
        exact ih _ (assocSet_keys_nodup acc k1 v h)
  exact main (nodeKeys st) [] (by simp)

theorem foldl_nodeSet_find (now : Nat) (ps : List (String × Json))
    (hnd : (ps.map Prod.fst).Nodup) (s0 : Store) (k : String) :
    nodeGet now (ps.foldl (fun s kv => nodeSet now s kv.1 kv.2) s0) k =
      match assocFind ps k with
      | some v => some v
      | none => nodeGet now s0 k := by
  induction ps generalizing s0 with
  | nil => simp [assocFind]
  | cons hd rest ih =>
    obtain ⟨k1, v1⟩ := hd
    simp only [List.map_cons, List.nodup_cons] at hnd
    simp only [List.foldl_cons]
    rw [ih hnd.2]
    by_cases hk : k = k1
    · subst hk
      have : assocFind rest k = none :=
        assocFind_eq_none_of_not_mem rest k hnd.1
      simp [this, assocFind, nodeGet_nodeSet_self]
    · simp [assocFind, Ne.symm hk,
        nodeGet_nodeSet_ne now now s0 k1 k v1 hk]

/-! ### Lemmas about hex rendering and the digest -/

theorem hexDigit_hexLower (n : Nat) (h : n < 16) :
    hexLower (hexDigit n) = true := by
  interval_cases n <;> decide

theorem wordLE_lt (w : Nat) : ∀ x ∈ wordLE w, x < 256 := by
  intro x hx
  simp only [wordLE, List.mem_cons, List.not_mem_nil, or_false] at hx
  rcases hx with h | h | h | h <;> subst h <;>
    exact Nat.mod_lt _ (by norm_num)

theorem md5Digest_lt (msg : List Nat) : ∀ x ∈ md5Digest msg, x < 256 := by
  intro x hx
  simp only [md5Digest, List.mem_append] at hx
  rcases hx with ((h | h) | h) | h <;> exact wordLE_lt _ x h

theorem hexRender_length (bs : List Nat) :
    (hexRender bs).length = 2 * bs.length := by
  unfold hexRender
  rw [List.length_flatMap]
  induction bs with
  | nil => rfl
  | cons b tl ih =>
    simp only [List.map_cons, List.sum_cons, ih, Function.comp_apply,
      List.length_cons, List.length_nil]
    omega

theorem hexRender_mem (bs : List Nat) (hb : ∀ b ∈ bs, b < 256) :
    ∀ c ∈ hexRender bs, hexLower c = true := by
  intro c hc
  unfold hexRender at hc
  rw [List.mem_flatMap] at hc
  obtain ⟨b, hbm, hc⟩ := hc
  have hlt : b < 256 := hb b hbm
  simp only [List.mem_cons, List.not_mem_nil, or_false] at hc
  rcases hc with h | h
  · rw [h]; exact hexDigit_hexLower _ (by omega)
  · rw [h]; exact hexDigit_hexLower _ (by omega)

theorem md5Digest_length (msg : List Nat) : (md5Digest msg).length = 16 := by
  simp [md5Digest, wordLE]

/-! ### A reusable description of a successful cache miss -/

theorem resolve_miss_eq (now : Nat) (st : Store) (d : FileState)
    (req : Descriptor) (host : String)
    (fwd : List (String × String) → Upstream) (P : Json)
    (hmiss : optTruthy (nodeGet now st (generateCacheKey req)) = false)
    (hfwd : fwd (assocSet req.headers "host" host) = .reply 200 P)
    (htruthy : jsTruthy P = true) :
    resolve now st d req host fwd =
      ⟨.miss P, nodeSet now st (generateCacheKey req) P,
        saveCache now (nodeSet now st (generateCacheKey req) P),
        [assocSet req.headers "host" host]⟩ := by
  have hcall : axiosCall true (fwd (assocSet req.headers "host" host)) =
      .ok (200, P) := by
    rw [hfwd]; simp [axiosCall]
  simp [resolve, hmiss, hcall, htruthy]

/-! ## Claim theorems -/

/-- Claim C5: key derivation is pure, total and deterministic — two
descriptors with identical method, target and header mapping get the same
key, and every descriptor yields a 32-character lowercase-hex key. -/
theorem c5_key_derivation (d1 d2 : Descriptor) (hm : d1.method = d2.method)
    (hu : d1.url = d2.url) (hh : d1.headers = d2.headers) :
    generateCacheKey d1 = generateCacheKey d2 ∧
    (generateCacheKey d1).length = 32 ∧
    ∀ c ∈ (generateCacheKey d1).data, hexLower c = true := by
  have hd : d1 = d2 := by
    cases d1; cases d2; simp_all
  subst hd
  refine ⟨rfl, ?_, ?_⟩
  · show (String.mk (hexRender (md5Digest (utf8Bytes (stringifyKeyData d1))))).length = 32
    simp [String.length, hexRender_length, md5Digest_length]
  · intro c hc
    exact hexRender_mem _ (md5Digest_lt _) c hc

/-- Witness for C5 at a concrete descriptor. -/
theorem c5_key_derivation_witness :
    generateCacheKey reqPlain = generateCacheKey reqPlain ∧
    (generateCacheKey reqPlain).length = 32 ∧
    ∀ c ∈ (generateCacheKey reqPlain).data, hexLower c = true :=
  c5_key_derivation reqPlain reqPlain rfl rfl rfl

/-- Claim C6: snapshot round-trip — restoring (into the empty startup
store) from a snapshot just produced reproduces the same key-to-value
mapping as the original store, for any store state. -/
theorem c6_snapshot_roundtrip (now : Nat) (st : Store) (k : String) :
    nodeGet now (loadCache now [] (saveCache now st)).1 k =
      nodeGet now st k := by
  show nodeGet now
      (loadCache now [] (.parsed (.obj (cacheData now st)))).1 k = _
  simp only [loadCache, jsEntries]
  rw [foldl_nodeSet_find now _ (cacheData_keys_nodup now st) [] k]
  rw [assocFind_cacheData]
  rcases hg : nodeGet now st k with _ | v <;> simp [hg, nodeGet_nil]

/-- Claim C8: clear idempotence — `clearCache` always leaves the store
empty and the snapshot file absent (whether or not the store was empty or
the file existed), and a second `clearCache` is a no-op that still
succeeds. -/
theorem c8_clear_idempotent (st : Store) (d : FileState) :
    (clearCache st d).1 = [] ∧ (clearCache st d).2 = .absent ∧
    clearCache (clearCache st d).1 (clearCache st d).2 = clearCache st d := by
  rcases d <;> simp [clearCache, fileExists]

/-- Counterexample to claim C7 as stated: a snapshot file that is
malformed as a snapshot — it holds the JSON array `[1]`, not an object —
does NOT leave the store empty: `Object.entries([1])` yields `["0", 1]`,
so restore loads a bogus entry under key `"0"`. -/
theorem c7_nonobject_counterexample :
    (loadCache 0 [] (.parsed (.arr [.num 1]))).1 =
      [("0", Json.num 1, 3600)] ∧
    (loadCache 0 [] (.parsed (.arr [.num 1]))).1 ≠ [] := by
  refine ⟨rfl, ?_⟩
  rw [show (loadCache 0 [] (.parsed (.arr [.num 1]))).1 =
      [("0", Json.num 1, 3600)] from rfl]
  simp

/-- Claim C7 (amended): for every snapshot file that is absent, or whose
read/parse throws (unreadable or syntactically malformed JSON), or that
parses to JSON `null` (so `Object.entries` throws), restore leaves the
startup store empty and, when the file was present, reports the caught
failure for logging; no unhandled fault is raised and startup proceeds.
(A present file that parses to a non-object, non-null JSON value is NOT
treated as empty: its enumerable entries are loaded.) -/
theorem c7_restore_failure_tolerance (now : Nat) (d : FileState)
    (h : d = .absent ∨ d = .unreadable ∨ d = .parsed .null) :
    (loadCache now [] d).1 = [] ∧
    (d ≠ .absent → (loadCache now [] d).2 = true) := by
  rcases h with h | h | h <;> subst h <;> simp [loadCache]

/-- Witness for the amended C7 at a concrete unreadable file. -/
theorem c7_restore_failure_tolerance_witness :
    (loadCache 0 [] .unreadable).1 = [] ∧
    (FileState.unreadable ≠ .absent → (loadCache 0 [] .unreadable).2 = true) :=
  c7_restore_failure_tolerance 0 .unreadable (Or.inr (Or.inl rfl))

/-- Counterexample to claim C1 as stated: with a fresh store, a forward
callback answering status 200 with the falsy payload `""` does not yield
`(P, MISS)` — the handler takes no result branch at all (`noResponse`) and
inserts nothing into the store. -/
theorem c1_falsy_counterexample :
    (resolve 0 [] .absent reqPlain "origin.example"
        (fwd200 (.str ""))).outcome = .noResponse ∧
    (resolve 0 [] .absent reqPlain "origin.example"
        (fwd200 (.str ""))).store = [] ∧
    Outcome.noResponse ≠ .miss (.str "") := by
  refine ⟨rfl, rfl, ?_⟩
  simp

/-- Claim C1 (amended: for a truthy payload P): starting from a store with
no entry for the descriptor, resolving with a forward callback answering
status 200 and truthy payload P yields `(P, MISS)` with one upstream call
and inserts P; an immediately following resolve of the same descriptor
yields `(P, HIT)`, leaves the store unchanged and makes no upstream call,
so the callback runs exactly once across both calls. -/
theorem c1_hit_after_miss (now : Nat) (st : Store) (d : FileState)
    (req : Descriptor) (host : String)
    (fwd : List (String × String) → Upstream) (P : Json)
    (hfresh : nodeGet now st (generateCacheKey req) = none)
    (hfwd : fwd (assocSet req.headers "host" host) = .reply 200 P)
    (htruthy : jsTruthy P = true) :
    (resolve now st d req host fwd).outcome = .miss P ∧
    nodeGet now (resolve now st d req host fwd).store
        (generateCacheKey req) = some P ∧
    (resolve now st d req host fwd).calls.length = 1 ∧
    (resolve now (resolve now st d req host fwd).store
        (resolve now st d req host fwd).disk req host fwd).outcome =
      .hit P ∧
    (resolve now (resolve now st d req host fwd).store
        (resolve now st d req host fwd).disk req host fwd).store =
      (resolve now st d req host fwd).store ∧
    (resolve now (resolve now st d req host fwd).store
        (resolve now st d req host fwd).disk req host fwd).calls = [] := by
  have hmiss : optTruthy (nodeGet now st (generateCacheKey req)) = false := by
    rw [hfresh]; rfl
  have hres1 := resolve_miss_eq now st d req host fwd P hmiss hfwd htruthy
  have hget2 : nodeGet now (nodeSet now st (generateCacheKey req) P)
      (generateCacheKey req) = some P := by
    rw [nodeGet_nodeSet_self, if_neg (by omega)]
  have hres2 : resolve now (nodeSet now st (generateCacheKey req) P)
      (saveCache now (nodeSet now st (generateCacheKey req) P)) req host
      fwd =
      ⟨.hit P, nodeSet now st (generateCacheKey req) P,
        saveCache now (nodeSet now st (generateCacheKey req) P), []⟩ := by
    simp [resolve, hget2, optTruthy, htruthy]
  rw [hres1]
  exact ⟨rfl, hget2, rfl, by rw [hres2], by rw [hres2], by rw [hres2]⟩

/-- Witness for the amended C1 at the spec's end-to-end scenario:
`GET /x`, origin answering `{"a":1}`. -/
theorem c1_hit_after_miss_witness :
    (resolve 0 [] .absent reqPlain "h" (fwd200 payloadA)).outcome =
      .miss payloadA ∧
    nodeGet 0 (resolve 0 [] .absent reqPlain "h" (fwd200 payloadA)).store
        (generateCacheKey reqPlain) = some payloadA ∧
    (resolve 0 [] .absent reqPlain "h" (fwd200 payloadA)).calls.length = 1 ∧
    (resolve 0 (resolve 0 [] .absent reqPlain "h" (fwd200 payloadA)).store
        (resolve 0 [] .absent reqPlain "h" (fwd200 payloadA)).disk reqPlain
        "h" (fwd200 payloadA)).outcome = .hit payloadA ∧
    (resolve 0 (resolve 0 [] .absent reqPlain "h" (fwd200 payloadA)).store
        (resolve 0 [] .absent reqPlain "h" (fwd200 payloadA)).disk reqPlain
        "h" (fwd200 payloadA)).store =
      (resolve 0 [] .absent reqPlain "h" (fwd200 payloadA)).store ∧
    (resolve 0 (resolve 0 [] .absent reqPlain "h" (fwd200 payloadA)).store
        (resolve 0 [] .absent reqPlain "h" (fwd200 payloadA)).disk reqPlain
        "h" (fwd200 payloadA)).calls = [] :=
  c1_hit_after_miss 0 [] .absent reqPlain "h" (fwd200 payloadA) payloadA
    rfl rfl rfl

/-- Claim C2, evaluated at the failing input: a cache-missing `GET /x`
carrying `if-none-match: abc` is forwarded upstream WITH the conditional
header still present (the stripped `headers` object computed at
src/index.js lines 92-94 is not used by the first axios call, which
spreads `req.headers` at line 100). -/
theorem c2_conditional_header_forwarded :
    (resolve 0 [] .absent reqCond "api.example.com"
        (fwd200 payloadA)).calls =
      [[("if-none-match", "abc"), ("host", "api.example.com")]] := rfl

/-- Claim C3, evaluated at the failing input: with the CLI TTL left at its
default (60 s), an entry cached at t = 0 is still served by `get` at
t = 61 s, because the core caches with the hard-coded `stdTTL: 3600` and
never consumes the configured `--ttl` value. -/
theorem c3_ttl_not_configured :
    nodeGet 61 (resolve 0 [] .absent reqPlain "h"
        (fwd200 payloadA)).store (generateCacheKey reqPlain) =
      some payloadA ∧
    stdTTL = 3600 := by
  refine ⟨?_, rfl⟩
  rw [resolve_miss_eq 0 [] .absent reqPlain "h" (fwd200 payloadA) payloadA
    rfl rfl rfl]
  show nodeGet 61 (nodeSet 0 [] (generateCacheKey reqPlain) payloadA)
      (generateCacheKey reqPlain) = some payloadA
  rw [nodeGet_nodeSet_self, if_neg (by norm_num [stdTTL])]

/-- Claim C4: when the request misses the cache and the upstream call
fails — a network error, or a status outside 2xx/304 — the resolver
mutates neither the store nor the snapshot file and responds with an
error outcome carrying the upstream status when available, else 500. -/
theorem c4_upstream_failure (now : Nat) (st : Store) (d : FileState)
    (req : Descriptor) (host : String)
    (fwd : List (String × String) → Upstream) (u : Upstream)
    (hmiss : optTruthy (nodeGet now st (generateCacheKey req)) = false)
    (hu : fwd (assocSet req.headers "host" host) = u)
    (hfail : match u with
      | .netError _ => True
      | .reply s _ => ¬ ((200 ≤ s ∧ s < 300) ∨ s = 304)) :
    (resolve now st d req host fwd).store = st ∧
    (resolve now st d req host fwd).disk = d ∧
    ∃ details,
      (resolve now st d req host fwd).outcome =
        .errorResp
          (match u with | .netError _ => 500 | .reply s _ => s)
          details := by
  rcases u with ⟨s, dta⟩ | msg
  · have hcall : axiosCall true (fwd (assocSet req.headers "host" host)) =
        .error (some s, "Request failed with status code " ++ toString s) := by
      rw [hu]
      simp only [axiosCall]
      rw [if_neg (by simpa using hfail)]
    have hs304 : s ≠ 304 := by
      intro hh
      exact hfail (Or.inr hh)
    have hres : resolve now st d req host fwd =
        ⟨.errorResp s ("Request failed with status code " ++ toString s),
          st, d, [assocSet req.headers "host" host]⟩ := by
      simp [resolve, hmiss, hcall, catchBlock, hs304]
    rw [hres]
    exact ⟨rfl, rfl, _, rfl⟩
  · have hcall : axiosCall true (fwd (assocSet req.headers "host" host)) =
        .error (none, msg) := by
      rw [hu]
      rfl
    have hres : resolve now st d req host fwd =
        ⟨.errorResp 500 msg, st, d,
          [assocSet req.headers "host" host]⟩ := by
      simp [resolve, hmiss, hcall, catchBlock]
    rw [hres]
    exact ⟨rfl, rfl, _, rfl⟩

/-- Witness for C4: a 503 upstream reply on a fresh store produces a 503
error outcome and leaves store and snapshot untouched. -/
theorem c4_upstream_failure_witness :
    (resolve 0 [] .absent reqPlain "api.example.com" fwd503).store = [] ∧
    (resolve 0 [] .absent reqPlain "api.example.com" fwd503).disk =
      .absent ∧
    ∃ details,
      (resolve 0 [] .absent reqPlain "api.example.com" fwd503).outcome =
        .errorResp 503 details :=
  c4_upstream_failure 0 [] .absent reqPlain "api.example.com" fwd503
    (.reply 503 .null) rfl rfl (by decide)

/-- Claim C9: write-through persistence — after any resolve, either the
store is unchanged and the snapshot file is unchanged, or the snapshot
file holds exactly the serialization of the resulting store (every `set`
is immediately followed by `saveCache` before the response). -/
theorem c9_write_through (now : Nat) (st : Store) (d : FileState)
    (req : Descriptor) (host : String)
    (fwd : List (String × String) → Upstream) :
    ((resolve now st d req host fwd).store = st ∧
      (resolve now st d req host fwd).disk = d) ∨
    (resolve now st d req host fwd).disk =
      saveCache now (resolve now st d req host fwd).store := by
  simp only [resolve]
  repeat' split
  all_goals first
    | exact Or.inl ⟨rfl, rfl⟩
    | exact Or.inr rfl

/-- Claim C10: falsy-payload edge — when the cached value is falsy (in
particular absent) and the upstream answers 2xx with a falsy body, the
handler takes none of its result branches: nothing is stored, nothing is
written, no payload and no error outcome is produced, after exactly one
upstream call. -/
theorem c10_falsy_payload (now : Nat) (st : Store) (d : FileState)
    (req : Descriptor) (host : String)
    (fwd : List (String × String) → Upstream) (s : Nat) (P : Json)
    (hmiss : optTruthy (nodeGet now st (generateCacheKey req)) = false)
    (hfwd : fwd (assocSet req.headers "host" host) = .reply s P)
    (h2xx : 200 ≤ s ∧ s < 300)
    (hfalsy : jsTruthy P = false) :
    resolve now st d req host fwd =
      ⟨.noResponse, st, d, [assocSet req.headers "host" host]⟩ := by
  have hcall : axiosCall true (fwd (assocSet req.headers "host" host)) =
      .ok (s, P) := by
    rw [hfwd]
    simp [axiosCall, h2xx]
  have hs304 : s ≠ 304 := by omega
  simp [resolve, hmiss, hcall, hs304, hfalsy]

/-- Witness for C10: a 200 reply whose body is the empty string, on a
fresh store, produces no response and changes nothing. -/
theorem c10_falsy_payload_witness :
    resolve 0 [] .absent reqPlain "h" (fwd200 (.str "")) =
      ⟨.noResponse, [], .absent, [[("host", "h")]]⟩ :=
  c10_falsy_payload 0 [] .absent reqPlain "h" (fwd200 (.str "")) 200
    (.str "") rfl rfl (by decide) rfl
